import Mathlib

/-!
Verification of the EV-charging dashboard data pipeline
(`summary_final.py`, with the shared region/filter logic of `main.py`).

Modelling conventions:
* Naive local timestamps are whole seconds (`Int`); `pd.to_datetime(date)`
  of a calendar date is the midnight timestamp of that day, `.dt.date` is
  floor division by 86400, `.dt.hour` the hour of day, `.dt.day_name()` the
  English weekday name (day 0 = 1970-01-01 = Thursday).
* Float columns that can hold NaN are modelled by `FQ` (a rational or NaN);
  NaN makes every ordered comparison false, as for Python floats.  Columns
  that hold NaN only through a missing value (`end_time`, `duration_hour`)
  are modelled with `Option`.
* A pandas left merge pairs each left row with every matching right row, in
  order, and emits a single null-named row when there is no match; `fillna`
  replaces only missing values.  `groupby` (default `sort=True`) emits
  groups in sorted key order; the final `sort_values` reordering of the
  station table uses the default quicksort kind, whose tie order pandas
  leaves unspecified, and is not modelled.
-/

/-- Latitude/longitude float value: either NaN or a rational number. -/
inductive FQ where
  | nan : FQ
  | val : ℚ → FQ
deriving DecidableEq

/-- Python `x > c` on a float `x` and a numeral `c`: false whenever `x` is NaN. -/
def FQ.gtQ : FQ → ℚ → Bool
  | .nan, _ => false
  | .val v, c => decide (c < v)

/-- The region step function of `summary_final.py` lines 73-79 (identical in `main.py`). -/
def region (lat : FQ) : String :=
  if lat.gtQ 17 then "North"
  else if lat.gtQ 13 then "Central"
  else "South"

/-- Seconds in a day. -/
def secsPerDay : Int := 86400

/-- The calendar date (`.dt.date`) of a timestamp, as days since the epoch. -/
def dateOf (t : Int) : Int := t.fdiv secsPerDay

/-- The hour of day (`.dt.hour`) of a timestamp. -/
def hourOf (t : Int) : Int := (t.emod secsPerDay).fdiv 3600

/-- Midnight of a calendar date, as `pd.to_datetime(date)` produces it. -/
def midnightOf (d : Int) : Int := d * secsPerDay

/-- English weekday name (`.dt.day_name()`) of a calendar date; day 0 is a Thursday. -/
def dayName (d : Int) : String :=
  match (d.emod 7).toNat with
  | 0 => "Thursday"
  | 1 => "Friday"
  | 2 => "Saturday"
  | 3 => "Sunday"
  | 4 => "Monday"
  | 5 => "Tuesday"
  | _ => "Wednesday"

/-- A session record after normalization (timestamps parsed and tz-stripped,
coordinates split positionally, power fields coerced to float); a missing
`end_charging_time` is `none` (pandas NaT). -/
structure RawSession where
  station_id : Int
  source : String
  start_time : Int
  end_time : Option Int
  longitude : FQ
  latitude : FQ
  estimate_power : ℚ
  efficiency : ℚ
deriving DecidableEq

/-- A session row with the derived metric columns of lines 46-60 added. -/
structure DerivedRow extends RawSession where
  duration_hour : Option ℚ
  effective_power : ℚ
  start_hour : Int
  date : Int
  weekday_name : String
deriving DecidableEq

/-- Derived metrics of `summary_final.py` lines 46-60: duration in hours
(NaN when the end timestamp is missing), effective power, hour, date and
weekday buckets. -/
def deriveRow (r : RawSession) : DerivedRow :=
  { toRawSession := r
    duration_hour := r.end_time.map (fun e => ((e - r.start_time : Int) : ℚ) / 3600)
    effective_power := r.estimate_power * r.efficiency
    start_hour := hourOf r.start_time
    date := dateOf r.start_time
    weekday_name := dayName (dateOf r.start_time) }

/-- The decoded `name_obj` mapping of a station directory entry, with its
optional `th` and `en` keys (the JSON-in-string field after `json.loads`). -/
structure NameObj where
  th : Option String
  en : Option String
deriving DecidableEq

/-- One entry of the station directory (`station_df` after normalization). -/
structure StationEntry where
  id : Int
  source : String
  name_obj : NameObj
deriving DecidableEq

/-- Name selection of line 34: `x.get("th") if x.get("th") else x.get("en")`;
a present but empty `th` is falsy in Python, so it falls through to `en`. -/
def resolveName (x : NameObj) : Option String :=
  match x.th with
  | some t => if t = "" then x.en else some t
  | none => x.en

/-- A fully enriched session row: derived metrics plus the joined
`station_name` (after `fillna`) and the `region` bucket. -/
structure SessionRow extends DerivedRow where
  station_name : String
  region : String
deriving DecidableEq

/-- Attach a resolved-name value to a row: `fillna(str(station_id))` keeps a
present name (even an empty string) and replaces only a missing one; the
region column is computed from latitude. -/
def enrichRow (r : DerivedRow) (n : Option String) : SessionRow :=
  { toDerivedRow := r
    station_name := n.getD (toString r.station_id)
    region := region r.latitude }

/-- The resolved-name column values a pandas left merge produces for one left
row: one value per matching directory entry, in directory order, or a single
missing value when nothing matches. -/
def matchNames (dir : List StationEntry) (r : DerivedRow) : List (Option String) :=
  match dir.filter (fun e => e.id == r.station_id && e.source == r.source) with
  | [] => [none]
  | ms => ms.map (fun e => resolveName e.name_obj)

/-- The join and enrichment step of lines 63-81: left merge on
`(station_id, source)`, `fillna` with the stringified station id, then the
region column. -/
def mergeStation (rows : List DerivedRow) (dir : List StationEntry) : List SessionRow :=
  rows.flatMap (fun r => (matchNames dir r).map (enrichRow r))

/-- The single output row the merge produces for a left row when directory
keys are unique: the first (only) match, or the fallback row. -/
def mergeOne (dir : List StationEntry) (r : DerivedRow) : SessionRow :=
  match dir.find? (fun e => e.id == r.station_id && e.source == r.source) with
  | none => enrichRow r none
  | some e => enrichRow r (resolveName e.name_obj)

/-- The sidebar filter selection: provider, station and region multiselects,
the date-range input (a list, since a partial selection can have fewer or
more than two elements) and the hour-range slider. -/
structure FilterSelection where
  providers : List String
  stations : List String
  date_range : List Int
  hour_lo : Int
  hour_hi : Int
  regions : List String

/-- The date-range block of lines 128-132: applied only when the selection
has exactly two elements, comparing the full `start_time` against the
midnight timestamps of the two endpoint dates. -/
def dateFilter (dr : List Int) (l : List SessionRow) : List SessionRow :=
  match dr with
  | [d0, d1] =>
      l.filter (fun r => decide (midnightOf d0 ≤ r.start_time ∧ r.start_time ≤ midnightOf d1))
  | _ => l

/-- The filter chain of `summary_final.py` lines 118-141: provider, station,
date range, hour range, region, in that order, each an `isin`/comparison mask. -/
def applyFilter (rows : List SessionRow) (sel : FilterSelection) : List SessionRow :=
  let f1 := rows.filter (fun r => decide (r.source ∈ sel.providers))
  let f2 := f1.filter (fun r => decide (r.station_name ∈ sel.stations))
  let f3 := dateFilter sel.date_range f2
  let f4 := f3.filter (fun r => decide (sel.hour_lo ≤ r.start_hour ∧ r.start_hour ≤ sel.hour_hi))
  f4.filter (fun r => decide (r.region ∈ sel.regions))

/-- Mean of a list of rationals, `none` on the empty list (pandas mean of an
empty column is NaN). -/
def meanQ (l : List ℚ) : Option ℚ :=
  if l.length = 0 then none else some (l.sum / l.length)

/-- Pandas NaN-skipping mean (`skipna=True`, the default): drop the missing
values, then average; NaN when nothing remains. -/
def nanMean (l : List (Option ℚ)) : Option ℚ := meanQ l.reduceOption

/-- Pandas NaN-skipping max. -/
def nanMax (l : List (Option ℚ)) : Option ℚ := l.reduceOption.max?

/-- Pandas NaN-skipping min. -/
def nanMin (l : List (Option ℚ)) : Option ℚ := l.reduceOption.min?

/-- First aggregation stage of lines 172-177:
`groupby(["weekday_name", "date"]).size()` — one session count per distinct
(weekday, calendar date) pair. -/
def dailyCounts (rows : List SessionRow) : List ((String × Int) × Nat) :=
  ((rows.map (fun r => (r.weekday_name, r.date))).dedup).map
    (fun k => (k, (rows.filter (fun r => decide ((r.weekday_name, r.date) = k))).length))

/-- Second aggregation stage of lines 180-185: the mean of the per-day
session counts of one weekday name; `none` when the weekday is absent
(the `reindex` slot stays NaN). -/
def weekdayAvgSessions (rows : List SessionRow) (w : String) : Option ℚ :=
  let vals := ((dailyCounts rows).filter (fun p => decide (p.1.1 = w))).map
    (fun p => (p.2 : ℚ))
  if vals.length = 0 then none else some (vals.sum / vals.length)

/-- Display order of the weekday table. -/
def weekdayOrder : List String :=
  ["Monday", "Tuesday", "Wednesday", "Thursday", "Friday", "Saturday", "Sunday"]

/-- One row of the per-station rollup table. -/
structure StationAgg where
  station_name : String
  sessions : Nat
  avg_duration : Option ℚ
  avg_power : Option ℚ
deriving DecidableEq

/-- The grouped station table of lines 233-240 before sorting:
`groupby("station_name")` emits one aggregate row per distinct station name,
in sorted key order (pandas `sort=True` default), with session count, mean
duration and mean effective power. -/
def stationGroups (rows : List SessionRow) : List StationAgg :=
  (List.insertionSort (fun a b => a ≤ b) ((rows.map (fun r => r.station_name)).dedup)).map
    (fun name =>
      { station_name := name
        sessions := (rows.filter (fun r => r.station_name == name)).length
        avg_duration :=
          nanMean ((rows.filter (fun r => r.station_name == name)).map (fun r => r.duration_hour))
        avg_power :=
          meanQ ((rows.filter (fun r => r.station_name == name)).map (fun r => r.effective_power)) })

/-- The aggregates rendered below the filter: KPI scalars, the weekday
table and the station summary. -/
structure Aggregates where
  total_sessions : Nat
  avg_duration : Option ℚ
  avg_power : Option ℚ
  max_power : Option ℚ
  weekday_avg : List (String × Option ℚ)
  station_table : List StationAgg
deriving DecidableEq

/-- KPI and table computation over the filtered rows (lines 154-157,
172-185, 233-242).  The station table is carried in group-emission order;
the final `sort_values("sessions", ascending=False)` reordering uses the
default quicksort kind, whose tie order pandas leaves unspecified, and is
not modelled. -/
def computeAggregates (f : List SessionRow) : Aggregates :=
  { total_sessions := f.length
    avg_duration := nanMean (f.map (fun r => r.duration_hour))
    avg_power := meanQ (f.map (fun r => r.effective_power))
    max_power := (f.map (fun r => r.effective_power)).max?
    weekday_avg := weekdayOrder.map (fun w => (w, weekdayAvgSessions f w))
    station_table := stationGroups f }

/-- Result of one dashboard rendering pass: either the no-data banner
(`st.warning` followed by `st.stop()`) or the rendered aggregates. -/
inductive Outcome where
  | noData : Outcome
  | rendered : Aggregates → Outcome
deriving DecidableEq

/-- Lines 143-157 and below: stop with the no-data state when the filtered
frame is empty, otherwise compute and render every aggregate. -/
def runDashboard (rows : List SessionRow) (sel : FilterSelection) : Outcome :=
  let f := applyFilter rows sel
  if f.isEmpty then Outcome.noData else Outcome.rendered (computeAggregates f)

/-- Modelled from the spec words only, for comparison with `applyFilter`:
the claimed date predicate `date_range[0] <= start_time.date_component <=
date_range[1]`, inclusive on both ends. -/
abbrev specDatePred (r : SessionRow) (d0 d1 : Int) : Prop :=
  d0 ≤ dateOf r.start_time ∧ dateOf r.start_time ≤ d1

def sampleRaw (sid : Int) (src : String) (t : Int) : RawSession :=
  { station_id := sid, source := src, start_time := t, end_time := some (t + 3600),
    longitude := FQ.val 100, latitude := FQ.val 14, estimate_power := 50, efficiency := 9/10 }

def mondayRows : List SessionRow :=
  mergeStation
    (((List.range 3).map (fun s => deriveRow (sampleRaw 1 "evA" (midnightOf 4 + s)))) ++
     ((List.range 5).map (fun s => deriveRow (sampleRaw 1 "evA" (midnightOf 11 + s)))))
    []

def cRaw : RawSession := sampleRaw 7 "evA" (midnightOf 4 + 36000)

def cRow : SessionRow := enrichRow (deriveRow cRaw) (some "Station A")

def cSel : FilterSelection :=
  { providers := ["evA"], stations := ["Station A"], date_range := [4, 4],
    hour_lo := 0, hour_hi := 23, regions := ["Central"] }

def dupE1 : StationEntry := { id := 7, source := "evA", name_obj := { th := some "N1", en := none } }
def dupE2 : StationEntry := { id := 7, source := "evA", name_obj := { th := some "N2", en := none } }
def dRow : DerivedRow := deriveRow cRaw

def e5 : StationEntry := { id := 7, source := "evA", name_obj := { th := none, en := some "" } }

def wSel7 : FilterSelection :=
  { providers := ["zzz"], stations := ["Station A"], date_range := [4, 4],
    hour_lo := 0, hour_hi := 23, regions := ["Central"] }

def wSel9 : FilterSelection :=
  { providers := ["evA"], stations := ["Station A"], date_range := [4],
    hour_lo := 0, hour_hi := 23, regions := ["Central"] }

def wSel2 : FilterSelection :=
  { providers := ["evA"], stations := ["Station A"], date_range := [4, 5],
    hour_lo := 0, hour_hi := 23, regions := ["Central"] }

def wRawNoEnd : RawSession :=
  { station_id := 3, source := "evA", start_time := midnightOf 4, end_time := none,
    longitude := FQ.val 100, latitude := FQ.val 14, estimate_power := 50, efficiency := 9/10 }

def uRow : DerivedRow := deriveRow (sampleRaw 9 "evB" (midnightOf 5))

def thEnObj : NameObj := { th := some "สถานีทดสอบ", en := some "Test Station" }

def enOnlyObj : NameObj := { th := none, en := some "Test Station" }

def emptyObj : NameObj := { th := none, en := none }

/-! Helper lemmas about the filter chain -/

/-- With exactly two selected dates the date block is a plain filter. -/
theorem dateFilter_pair (d0 d1 : Int) (l : List SessionRow) :
    dateFilter [d0, d1] l =
      l.filter (fun r => decide (midnightOf d0 ≤ r.start_time ∧ r.start_time ≤ midnightOf d1)) :=
  rfl

/-- With any other number of selected dates the date block is skipped. -/
theorem dateFilter_skip (dr : List Int) (h : dr.length ≠ 2) (l : List SessionRow) :
    dateFilter dr l = l := by
  match dr with
  | [] => rfl
  | [_] => rfl
  | [_, _] => exact absurd rfl h
  | _ :: _ :: _ :: _ => rfl

/-- The date block never invents rows. -/
theorem dateFilter_sublist (dr : List Int) (l : List SessionRow) :
    (dateFilter dr l).Sublist l := by
  match dr with
  | [d0, d1] => exact List.filter_sublist l
  | [] => exact List.Sublist.refl l
  | [_] => exact List.Sublist.refl l
  | _ :: _ :: _ :: _ => exact List.Sublist.refl l

/-- The date block of an empty frame is empty. -/
theorem dateFilter_nil (dr : List Int) : dateFilter dr [] = [] := by
  match dr with
  | [d0, d1] => rfl
  | [] => rfl
  | [_] => rfl
  | _ :: _ :: _ :: _ => rfl

/-! C4: region thresholds -/

/-- C4.  Region classification is the exact step function over latitude:
latitude above 17 is North, between 13 exclusive and 17 inclusive is
Central, at most 13 is South; in particular 17.0 is Central and 13.0 is
South. -/
theorem region_thresholds :
    (∀ q : ℚ,
      (17 < q → region (FQ.val q) = "North") ∧
      (13 < q ∧ q ≤ 17 → region (FQ.val q) = "Central") ∧
      (q ≤ 13 → region (FQ.val q) = "South")) ∧
    region (FQ.val 17) = "Central" ∧ region (FQ.val 13) = "South" := by
  have hgen : ∀ q : ℚ,
      (17 < q → region (FQ.val q) = "North") ∧
      (13 < q ∧ q ≤ 17 → region (FQ.val q) = "Central") ∧
      (q ≤ 13 → region (FQ.val q) = "South") := by
    intro q
    refine ⟨fun h => ?_, fun h => ?_, fun h => ?_⟩
    · simp [region, FQ.gtQ, h]
    · have h17 : ¬ (17 : ℚ) < q := not_lt.mpr h.2
      simp [region, FQ.gtQ, h17, h.1]
    · have h17 : ¬ (17 : ℚ) < q := not_lt.mpr (h.trans (by norm_num))
      have h13 : ¬ (13 : ℚ) < q := not_lt.mpr h
      simp [region, FQ.gtQ, h17, h13]
  exact ⟨hgen, (hgen 17).2.1 ⟨by norm_num, le_refl _⟩, (hgen 13).2.2 (le_refl _)⟩

/-- Witness for C4 at latitudes 20, 15 and 5. -/
theorem region_thresholds_witness :
    region (FQ.val 20) = "North" ∧ region (FQ.val 15) = "Central" ∧
      region (FQ.val 5) = "South" :=
  ⟨(region_thresholds.1 20).1 (by norm_num),
   (region_thresholds.1 15).2.1 (by norm_num),
   (region_thresholds.1 5).2.2 (by norm_num)⟩

/-! C10: region totality and NaN -/

/-- C10.  The region function is total: every latitude, NaN included, is
classified, the result is always one of the three region names, and a NaN
latitude falls through both comparisons to South. -/
theorem region_total :
    (∀ lat : FQ, region lat = "North" ∨ region lat = "Central" ∨ region lat = "South") ∧
    region FQ.nan = "South" := by
  refine ⟨fun lat => ?_, rfl⟩
  unfold region
  split
  · exact Or.inl rfl
  · split
    · exact Or.inr (Or.inl rfl)
    · exact Or.inr (Or.inr rfl)

/-! C7: empty filter result short-circuits to the no-data state -/

/-- C7.  A selection whose provider set matches no row leaves the filtered
frame empty, and the dashboard run ends in the no-data outcome (a normal
state carrying no aggregates) instead of rendering anything. -/
theorem disjoint_providers_no_data (rows : List SessionRow) (sel : FilterSelection)
    (h : ∀ r ∈ rows, r.source ∉ sel.providers) :
    applyFilter rows sel = [] ∧ runDashboard rows sel = Outcome.noData := by
  have h1 : rows.filter (fun r => decide (r.source ∈ sel.providers)) = [] := by
    rw [List.filter_eq_nil_iff]
    intro r hr
    simpa using h r hr
  have h2 : applyFilter rows sel = [] := by
    simp [applyFilter, h1, dateFilter_nil]
  exact ⟨h2, by simp [runDashboard, h2]⟩

/-- Witness for C7: a one-row frame and a provider filter disjoint from it. -/
theorem disjoint_providers_no_data_witness :
    runDashboard [cRow] wSel7 = Outcome.noData :=
  (disjoint_providers_no_data [cRow] wSel7 (by decide)).2

/-! C9: the date predicate is skipped unless exactly two dates are chosen -/

/-- C9.  When the date-range selection does not have exactly two elements,
the filter engine applies no date constraint: a row is kept exactly when it
passes the provider, station, hour and region predicates. -/
theorem date_filter_skipped (rows : List SessionRow) (sel : FilterSelection)
    (h : sel.date_range.length ≠ 2) :
    ∀ r : SessionRow, r ∈ applyFilter rows sel ↔
      r ∈ rows ∧ r.source ∈ sel.providers ∧ r.station_name ∈ sel.stations ∧
      (sel.hour_lo ≤ r.start_hour ∧ r.start_hour ≤ sel.hour_hi) ∧
      r.region ∈ sel.regions := by
  intro r
  simp only [applyFilter, dateFilter_skip sel.date_range h, List.mem_filter,
    decide_eq_true_eq]
  tauto

/-- Witness for C9: with a one-element date range the row passes even though
its start time lies strictly inside day 4, which the two-date predicate
would reject. -/
theorem date_filter_skipped_witness :
    cRow ∈ applyFilter [cRow] wSel9 :=
  (date_filter_skipped [cRow] wSel9 (by decide) cRow).mpr
    ⟨List.Mem.head _, by decide, by decide, by decide, by decide⟩

/-! C2: the filter conjunction -/

/-- C2, amended.  With a two-date selection the filtered frame is a
subsequence of the input in original order, and a row is kept exactly when
it passes all five predicates; the date predicate compares the full start
timestamp against the midnights of the two endpoint dates (so the lower
bound is equivalent to the date component being at least the first date,
but on the last date only a start at exactly midnight passes). -/
theorem filter_engine_conjunction (rows : List SessionRow) (sel : FilterSelection)
    (d0 d1 : Int) (hdr : sel.date_range = [d0, d1]) :
    (applyFilter rows sel).Sublist rows ∧
    ∀ r : SessionRow, r ∈ applyFilter rows sel ↔
      r ∈ rows ∧ r.source ∈ sel.providers ∧ r.station_name ∈ sel.stations ∧
      (midnightOf d0 ≤ r.start_time ∧ r.start_time ≤ midnightOf d1) ∧
      (sel.hour_lo ≤ r.start_hour ∧ r.start_hour ≤ sel.hour_hi) ∧
      r.region ∈ sel.regions := by
  constructor
  · show (applyFilter rows sel).Sublist rows
    refine (List.filter_sublist _).trans ?_
    refine (List.filter_sublist _).trans ?_
    refine (dateFilter_sublist _ _).trans ?_
    exact (List.filter_sublist _).trans (List.filter_sublist _)
  · intro r
    simp only [applyFilter, hdr, dateFilter_pair, List.mem_filter, decide_eq_true_eq]
    tauto

/-- Counterexample for C2 as stated: a row starting at 10:00 on day 4 has
date component inside the selected range [4, 4] and passes every other
predicate, yet the code filters it out, because the upper comparison is
against midnight of day 4, not the end of that date. -/
theorem filter_engine_date_component_counterexample :
    specDatePred cRow 4 4 ∧ cSel.date_range = [4, 4] ∧
    cRow ∈ [cRow] ∧ cRow.source ∈ cSel.providers ∧
    cRow.station_name ∈ cSel.stations ∧
    (cSel.hour_lo ≤ cRow.start_hour ∧ cRow.start_hour ≤ cSel.hour_hi) ∧
    cRow.region ∈ cSel.regions ∧
    applyFilter [cRow] cSel = [] := by
  refine ⟨by decide, rfl, List.Mem.head _, by decide, by decide, by decide, by decide, ?_⟩
  decide

/-- Witness for C2 at a concrete frame and selection whose date range spans
days 4 to 5. -/
theorem filter_engine_conjunction_witness :
    cRow ∈ applyFilter [cRow] wSel2 :=
  ((filter_engine_conjunction [cRow] wSel2 4 5 rfl).2 cRow).mpr
    ⟨List.Mem.head _, by decide, by decide, by decide, by decide, by decide⟩

/-! C6: NaN durations and NaN-skipping aggregation -/

/-- C6.  A missing end timestamp gives a NaN duration and the row is kept
(derivation is length-preserving); a present end gives the signed duration,
negative whenever the end precedes the start; the mean of a duration column
ignores missing entries, as do max and min, and an all-missing column has a
missing mean, not zero. -/
theorem duration_nan_semantics :
    (∀ raw : RawSession, raw.end_time = none → (deriveRow raw).duration_hour = none) ∧
    (∀ raws : List RawSession, (raws.map deriveRow).length = raws.length) ∧
    (∀ (raw : RawSession) (e : Int), raw.end_time = some e →
        (deriveRow raw).duration_hour = some (((e - raw.start_time : Int) : ℚ) / 3600) ∧
        (e < raw.start_time → ((e - raw.start_time : Int) : ℚ) / 3600 < 0)) ∧
    (∀ l1 l2 : List (Option ℚ),
        nanMean (l1 ++ none :: l2) = nanMean (l1 ++ l2) ∧
        nanMax (l1 ++ none :: l2) = nanMax (l1 ++ l2) ∧
        nanMin (l1 ++ none :: l2) = nanMin (l1 ++ l2)) ∧
    (∀ l : List (Option ℚ), (∀ x ∈ l, x = none) → nanMean l = none) := by
  refine ⟨?_, ?_, ?_, ?_, ?_⟩
  · intro raw h
    simp [deriveRow, h]
  · intro raws
    simp
  · intro raw e h
    refine ⟨by simp [deriveRow, h], fun hlt => ?_⟩
    have hneg : ((e - raw.start_time : Int) : ℚ) < 0 := by
      rw [Int.cast_lt_zero]
      omega
    exact div_neg_of_neg_of_pos hneg (by norm_num)
  · intro l1 l2
    refine ⟨?_, ?_, ?_⟩ <;>
      simp [nanMean, nanMax, nanMin, List.reduceOption_append, List.reduceOption_cons_of_none]
  · intro l h
    have hred : l.reduceOption = [] := by
      induction l with
      | nil => rfl
      | cons x xs ih =>
        have hx : x = none := h x (List.Mem.head _)
        subst hx
        exact (List.reduceOption_cons_of_none xs).trans
          (ih (fun y hy => h y (List.Mem.tail _ hy)))
    simp [nanMean, meanQ, hred]

/-- Witness for C6: a concrete row without an end timestamp and an
all-missing duration column. -/
theorem duration_nan_semantics_witness :
    (deriveRow wRawNoEnd).duration_hour = none ∧ nanMean [none, none] = none :=
  ⟨duration_nan_semantics.1 wRawNoEnd rfl,
   duration_nan_semantics.2.2.2.2 [none, none] (by decide)⟩

/-! C3: left-join semantics -/

/-- A filtered list that is a singleton starts with its unique match. -/
theorem find?_eq_of_filter_eq_singleton {α : Type} (p : α → Bool) :
    ∀ (l : List α) (e : α), l.filter p = [e] → l.find? p = some e := by
  intro l
  induction l with
  | nil => intro e h; simp at h
  | cons a tl ih =>
    intro e h
    by_cases hp : p a
    · rw [List.filter_cons_of_pos hp] at h
      rw [List.find?_cons_of_pos _ hp]
      exact congrArg some (List.head_eq_of_cons_eq h)
    · rw [List.filter_cons_of_neg hp] at h
      rw [List.find?_cons_of_neg _ hp]
      exact ih e h

/-- Under unique directory keys, a key can match at most one entry: the
match list is empty or a singleton. -/
theorem filter_key_subsingleton (dir : List StationEntry)
    (hnd : (dir.map (fun e => (e.id, e.source))).Nodup) (r : DerivedRow) :
    dir.filter (fun e => e.id == r.station_id && e.source == r.source) = [] ∨
    ∃ e, dir.filter (fun e => e.id == r.station_id && e.source == r.source) = [e] := by
  have hkey : ∀ x ∈ dir.filter (fun e => e.id == r.station_id && e.source == r.source),
      (x.id, x.source) = (r.station_id, r.source) := by
    intro x hx
    have hp := (List.mem_filter.mp hx).2
    simp only [Bool.and_eq_true, beq_iff_eq] at hp
    rw [hp.1, hp.2]
  have hsub : ((dir.filter (fun e => e.id == r.station_id && e.source == r.source)).map
      (fun e => (e.id, e.source))).Sublist (dir.map (fun e => (e.id, e.source))) :=
    (List.filter_sublist dir).map _
  have hnd2 := hnd.sublist hsub
  cases hl : dir.filter (fun e => e.id == r.station_id && e.source == r.source) with
  | nil => exact Or.inl rfl
  | cons e tl =>
    cases htl : tl with
    | nil => exact Or.inr ⟨e, rfl⟩
    | cons f tl2 =>
      exfalso
      rw [hl, htl] at hnd2
      have he := hkey e (by rw [hl, htl]; exact List.Mem.head _)
      have hf := hkey f (by rw [hl, htl]; exact List.Mem.tail _ (List.Mem.head _))
      simp only [List.map_cons, List.nodup_cons, List.mem_cons] at hnd2
      exact hnd2.1 (Or.inl (he.trans hf.symm))

/-- Under unique directory keys, each left row emits exactly the single
first-match (or fallback) output row. -/
theorem matchNames_eq_single (dir : List StationEntry)
    (hnd : (dir.map (fun e => (e.id, e.source))).Nodup) (r : DerivedRow) :
    (matchNames dir r).map (enrichRow r) = [mergeOne dir r] := by
  rcases filter_key_subsingleton dir hnd r with h | ⟨e, h⟩
  · have hf : dir.find? (fun e => e.id == r.station_id && e.source == r.source) = none :=
      List.find?_eq_none.mpr (List.filter_eq_nil_iff.mp h)
    rw [matchNames, mergeOne, h, hf]
    rfl
  · have hf : dir.find? (fun e => e.id == r.station_id && e.source == r.source) = some e :=
      find?_eq_of_filter_eq_singleton _ dir e h
    rw [matchNames, mergeOne, h, hf]
    rfl

/-- Under unique directory keys the merge is a plain map over the input rows. -/
theorem mergeStation_eq_map (rows : List DerivedRow) (dir : List StationEntry)
    (hnd : (dir.map (fun e => (e.id, e.source))).Nodup) :
    mergeStation rows dir = rows.map (mergeOne dir) := by
  induction rows with
  | nil => rfl
  | cons r tl ih =>
    show ((matchNames dir r).map (enrichRow r)) ++ mergeStation tl dir = _
    rw [matchNames_eq_single dir hnd r, ih]
    rfl

/-- C3, amended.  When the directory keys `(station_id, source)` are unique
(the empty directory included), the left join is total: it maps each input
row to exactly one output row, so output and input lengths agree, and a row
with no directory match gets the stringified station id as its name.  (With
duplicate keys pandas emits one output row per match, so the row count can
grow; see the counterexample.) -/
theorem left_join_totality (rows : List DerivedRow) (dir : List StationEntry)
    (hnd : (dir.map (fun e => (e.id, e.source))).Nodup) :
    mergeStation rows dir = rows.map (mergeOne dir) ∧
    (mergeStation rows dir).length = rows.length ∧
    ∀ r : DerivedRow, (∀ e ∈ dir, ¬ (e.id = r.station_id ∧ e.source = r.source)) →
      (mergeOne dir r).station_name = toString r.station_id := by
  refine ⟨mergeStation_eq_map rows dir hnd, ?_, ?_⟩
  · rw [mergeStation_eq_map rows dir hnd, List.length_map]
  · intro r hr
    have hf : dir.find? (fun e => e.id == r.station_id && e.source == r.source) = none := by
      rw [List.find?_eq_none]
      intro e he
      simpa using hr e he
    rw [mergeOne, hf]
    rfl

/-- Counterexample for C3 as stated: two directory entries share the key
(7, evA); the one matching input row yields two output rows, so the join is
not row-count preserving on directories with duplicate keys. -/
theorem left_join_duplicate_counterexample :
    (dupE1.id, dupE1.source) = (dupE2.id, dupE2.source) ∧
    [dRow].length = 1 ∧
    (mergeStation [dRow] [dupE1, dupE2]).length = 2 := by
  refine ⟨rfl, rfl, ?_⟩
  decide

/-- Witness for C3 on a singleton directory and an unmatched row. -/
theorem left_join_totality_witness :
    (mergeStation [uRow] [dupE1]).length = 1 ∧
    (mergeOne [dupE1] uRow).station_name = "9" := by
  have h := left_join_totality [uRow] [dupE1] (by decide)
  exact ⟨h.2.1.trans rfl, (h.2.2 uRow (by decide)).trans (by decide)⟩

/-! C5: station name resolution -/

/-- C5, amended.  Resolution prefers the `th` value when present and
nonempty and otherwise takes the `en` value; a row whose resolved name is
missing (no match, or neither key giving a value) gets the stringified
station id, while a present-but-empty resolved name is kept as the empty
string; the three spec examples resolve to the Thai name, the English name
and the station-id fallback respectively. -/
theorem station_name_resolution :
    (∀ (x : NameObj) (t : String), x.th = some t → t ≠ "" → resolveName x = some t) ∧
    (∀ x : NameObj, (x.th = none ∨ x.th = some "") → resolveName x = x.en) ∧
    (∀ (r : DerivedRow) (e : StationEntry), e.id = r.station_id → e.source = r.source →
        mergeStation [r] [e] = [enrichRow r (resolveName e.name_obj)] ∧
        (resolveName e.name_obj = none →
          (enrichRow r (resolveName e.name_obj)).station_name = toString r.station_id)) ∧
    (∀ r : DerivedRow,
        mergeStation [r] [] = [enrichRow r none] ∧
        (enrichRow r none).station_name = toString r.station_id) ∧
    resolveName thEnObj = some "สถานีทดสอบ" ∧
    resolveName enOnlyObj = some "Test Station" ∧
    resolveName emptyObj = none := by
  refine ⟨?_, ?_, ?_, ?_, rfl, rfl, rfl⟩
  · intro x t h hne
    simp [resolveName, h, hne]
  · intro x h
    rcases h with h | h <;> simp [resolveName, h]
  · intro r e h1 h2
    have hb : (fun e : StationEntry => e.id == r.station_id && e.source == r.source) e = true := by
      simp [h1, h2]
    have hfil : List.filter (fun e : StationEntry =>
        e.id == r.station_id && e.source == r.source) [e] = [e] := by
      simp [h1, h2]
    constructor
    · show ((matchNames [e] r).map (enrichRow r)) ++ [] = _
      rw [matchNames, hfil]
      rfl
    · intro hn
      simp [enrichRow, hn]
  · intro r
    exact ⟨rfl, by simp [enrichRow]⟩

/-- Counterexample for C5 as stated: a matched entry whose decoded name is
the empty English string resolves to an empty name, and the empty string
survives `fillna`, so the row keeps the empty name instead of falling back
to the stringified station id "7". -/
theorem station_name_empty_counterexample :
    resolveName e5.name_obj = some "" ∧
    (mergeStation [dRow] [e5]).map (fun s => s.station_name) = [""] ∧
    toString dRow.station_id = "7" ∧
    ("" : String) ≠ "7" := by
  refine ⟨rfl, by decide, by decide, by decide⟩

/-- Witness for C5: the Thai-name rule applied to the spec example and the
fallback on an unmatched row. -/
theorem station_name_resolution_witness :
    resolveName thEnObj = some "สถานีทดสอบ" ∧
    (enrichRow uRow none).station_name = toString uRow.station_id :=
  ⟨station_name_resolution.1 thEnObj "สถานีทดสอบ" rfl (by decide),
   (station_name_resolution.2.2.2.1 uRow).2⟩

/-! C1: two-stage weekday averaging -/

/-- The distinct pair keys with first component `w` are, up to permutation,
the distinct second components of the matching pairs tagged with `w`. -/
theorem dedup_pair_filter_perm {A B : Type} [DecidableEq A] [DecidableEq B]
    (l : List (A × B)) (w : A) :
    (l.dedup.filter (fun k => decide (k.1 = w))).Perm
      (((l.filter (fun k => decide (k.1 = w))).map (fun k => k.2)).dedup.map
        (fun d => (w, d))) := by
  have hinj : Function.Injective (fun d : B => (w, d)) := by
    intro a b h
    simpa using congrArg Prod.snd h
  refine (List.perm_ext_iff_of_nodup ((List.nodup_dedup l).filter _)
    ((List.nodup_dedup _).map hinj)).mpr ?_
  intro x
  simp only [List.mem_filter, List.mem_dedup, List.mem_map, decide_eq_true_eq]
  constructor
  · rintro ⟨hx, hxw⟩
    exact ⟨x.2, ⟨x, ⟨hx, hxw⟩, rfl⟩, by rw [← hxw]⟩
  · rintro ⟨d, ⟨k, ⟨hk, hkw⟩, hk2⟩, hwd⟩
    have hkx : k = x := by
      rw [← hwd, ← hkw, ← hk2]
    rw [← hkx]
    exact ⟨hk, hkw⟩

/-- The two-stage weekday average equals the mean, over the distinct
calendar dates of a weekday, of the per-date session counts. -/
theorem weekdayAvgSessions_eq (rows : List SessionRow) (w : String) :
    weekdayAvgSessions rows w =
      if (((rows.filter (fun r => decide (r.weekday_name = w))).map
            (fun r => r.date)).dedup).length = 0
      then none
      else some (((((rows.filter (fun r => decide (r.weekday_name = w))).map
            (fun r => r.date)).dedup).map (fun d =>
              ((rows.filter (fun r =>
                decide (r.weekday_name = w ∧ r.date = d))).length : ℚ))).sum /
          ((((rows.filter (fun r => decide (r.weekday_name = w))).map
            (fun r => r.date)).dedup).length)) := by
  classical
  have hvals : ((dailyCounts rows).filter (fun p => decide (p.1.1 = w))).map
        (fun p => ((p.2 : ℚ)))
      = (((rows.map (fun r => (r.weekday_name, r.date))).dedup).filter
          (fun k => decide (k.1 = w))).map (fun k =>
            (((rows.filter (fun r => decide ((r.weekday_name, r.date) = k))).length : ℚ))) := by
    rw [dailyCounts, List.filter_map, List.map_map]
    rfl
  have hD : ((rows.map (fun r => (r.weekday_name, r.date))).filter
        (fun k => decide (k.1 = w))).map (fun k => k.2)
      = (rows.filter (fun r => decide (r.weekday_name = w))).map (fun r => r.date) := by
    rw [List.filter_map, List.map_map]
    rfl
  have hperm := dedup_pair_filter_perm (rows.map (fun r => (r.weekday_name, r.date))) w
  rw [hD] at hperm
  have hpermv := (hperm.map (fun k : String × Int =>
    (((rows.filter (fun r => decide ((r.weekday_name, r.date) = k))).length : ℚ))))
  have hmm : ((((rows.filter (fun r => decide (r.weekday_name = w))).map
        (fun r => r.date)).dedup).map (fun d => (w, d))).map (fun k : String × Int =>
          (((rows.filter (fun r => decide ((r.weekday_name, r.date) = k))).length : ℚ)))
      = ((((rows.filter (fun r => decide (r.weekday_name = w))).map
          (fun r => r.date)).dedup).map (fun d =>
            ((rows.filter (fun r =>
              decide (r.weekday_name = w ∧ r.date = d))).length : ℚ))) := by
    rw [List.map_map]
    refine List.map_congr_left ?_
    intro d _
    have : (fun r : SessionRow => decide ((r.weekday_name, r.date) = (w, d)))
        = (fun r : SessionRow => decide (r.weekday_name = w ∧ r.date = d)) := by
      funext r
      simp [Prod.ext_iff]
    simp only [Function.comp]
    rw [this]
  rw [hmm] at hpermv
  rw [← hvals] at hpermv
  have hsum := hpermv.sum_eq
  have hlen := hpermv.length_eq.trans (List.length_map _ _)
  rw [weekdayAvgSessions]
  rw [hsum, hlen]

/-- C1.  The weekday session average is two-stage: rows are first counted
per (weekday, date) pair, then the per-day counts are averaged over the
distinct calendar dates of each weekday; on a frame with sessions on two
Mondays only, with 3 and 5 sessions, the Monday average is 4. -/
theorem weekday_avg_two_stage :
    (∀ (rows : List SessionRow) (w : String),
      weekdayAvgSessions rows w =
        if (((rows.filter (fun r => decide (r.weekday_name = w))).map
              (fun r => r.date)).dedup).length = 0
        then none
        else some (((((rows.filter (fun r => decide (r.weekday_name = w))).map
              (fun r => r.date)).dedup).map (fun d =>
                ((rows.filter (fun r =>
                  decide (r.weekday_name = w ∧ r.date = d))).length : ℚ))).sum /
            ((((rows.filter (fun r => decide (r.weekday_name = w))).map
              (fun r => r.date)).dedup).length))) ∧
    weekdayAvgSessions mondayRows "Monday" = some 4 := by
  constructor
  · exact weekdayAvgSessions_eq
  · have h : (dailyCounts mondayRows).filter (fun p => decide (p.1.1 = "Monday")) =
        [(("Monday", 4), 3), (("Monday", 11), 5)] := by decide
    simp [weekdayAvgSessions, h]
    norm_num
